import Mathlib

/-!
# Network-chaos helper (`chaoslib/litmus/network-chaos/helper/netem.go`)

A shallow embedding of the helper that injects a `tc netem` discipline into the
network namespace of a target container, waits, and removes it again.

* Go `string` and `[]byte` values are byte sequences (`Bytes`).
* Go `int` is the 64-bit signed integer; values are `Int`, with the range
  enforced where the program converts text to a number.
* `(T, error)` results are pairs whose second component is `Option Err`
  (`none` is the `nil` error).
* Calls that leave the process (Kubernetes API, `crictl`, `/bin/bash`,
  `tc.Killnetem`, the event recorder, signals and timers) are answered by a
  `World` record and recorded, in program order, in a list of `Event`s.
  Plain log lines are not recorded.
* `encoding/json` is the Go standard library; its validity scanner and the part
  of its decoder that fills the two structs of this program are modelled below.
-/

namespace Netem

/-- Byte sequences: Go `string` and `[]byte`. -/
abbrev Bytes := List UInt8

/-- The bytes of an ASCII literal. -/
def ascii (s : String) : Bytes := s.toList.map (fun c => UInt8.ofNat c.toNat)

/-! ## `encoding/json`: values -/

/-- A JSON document as the scanner sees it. Object members keep their order and
their duplicates; keys and strings are stored unquoted; numbers keep their
literal text. -/
inductive JSON where
  | null
  | bool (b : Bool)
  | num (lit : Bytes)
  | str (s : Bytes)
  | arr (xs : List JSON)
  | obj (ms : List (Bytes × JSON))

/-- Errors of `json.Unmarshal`: a document that is not valid JSON
(`*json.SyntaxError`), or a value that does not fit the Go field it is stored
into (`*json.UnmarshalTypeError`, with the name of the field). -/
inductive JsonError where
  | invalidDocument
  | unmarshalTypeError (field : String)
  deriving DecidableEq, Repr

/-! ## `encoding/json`: unquoting string literals (`unquoteBytes`) -/

/-- Value of a hexadecimal digit (`0` for any other byte; the scanner only lets
hexadecimal digits through). -/
def hexVal (c : UInt8) : Nat :=
  let n := c.toNat
  if 0x30 ≤ n ∧ n ≤ 0x39 then n - 0x30
  else if 0x61 ≤ n ∧ n ≤ 0x66 then n - 0x61 + 10
  else if 0x41 ≤ n ∧ n ≤ 0x46 then n - 0x41 + 10
  else 0

/-- Predicate `isHex`: the byte is a hexadecimal digit. -/
def isHex (c : UInt8) : Bool :=
  let n := c.toNat
  (0x30 ≤ n && n ≤ 0x39) || (0x61 ≤ n && n ≤ 0x66) || (0x41 ≤ n && n ≤ 0x46)

/-- Code unit of the four hexadecimal digits of a `\uXXXX` escape (`getu4`). -/
def getu4 (a b c d : UInt8) : Nat :=
  ((hexVal a * 16 + hexVal b) * 16 + hexVal c) * 16 + hexVal d

/-- UTF-8 encoding of a rune (`utf8.EncodeRune`); surrogates and values past
U+10FFFF are encoded as U+FFFD. -/
def encodeRune (r : Nat) : Bytes :=
  if r < 0x80 then [UInt8.ofNat r]
  else if r < 0x800 then [UInt8.ofNat (0xC0 + r / 64), UInt8.ofNat (0x80 + r % 64)]
  else if (0xD800 ≤ r ∧ r < 0xE000) ∨ 0x10FFFF < r then [0xEF, 0xBF, 0xBD]
  else if r < 0x10000 then
    [UInt8.ofNat (0xE0 + r / 4096), UInt8.ofNat (0x80 + r / 64 % 64), UInt8.ofNat (0x80 + r % 64)]
  else
    [UInt8.ofNat (0xF0 + r / 262144), UInt8.ofNat (0x80 + r / 4096 % 64),
     UInt8.ofNat (0x80 + r / 64 % 64), UInt8.ofNat (0x80 + r % 64)]

/-- The byte a two-character escape stands for. -/
def simpleEscape (c : UInt8) : UInt8 :=
  if c = 0x62 then 0x08        -- \b
  else if c = 0x66 then 0x0C   -- \f
  else if c = 0x6E then 0x0A   -- \n
  else if c = 0x72 then 0x0D   -- \r
  else if c = 0x74 then 0x09   -- \t
  else c                       -- \" \\ \/

/-- Continuation byte of a UTF-8 sequence. -/
def isCont (c : UInt8) : Bool := 0x80 ≤ c.toNat && c.toNat ≤ 0xBF

/-- Number of bytes of the UTF-8 sequence a lead byte announces (`0`: the byte
cannot start a sequence). -/
def utf8Need (c : UInt8) : Nat :=
  let n := c.toNat
  if 0xC2 ≤ n ∧ n ≤ 0xDF then 2
  else if 0xE0 ≤ n ∧ n ≤ 0xEF then 3
  else if 0xF0 ≤ n ∧ n ≤ 0xF4 then 4
  else 0

/-- Range check on the second byte of a UTF-8 sequence, which depends on the
lead byte (overlong forms, surrogates and values past U+10FFFF are refused). -/
def secondOk (c c1 : UInt8) : Bool :=
  let n := c.toNat
  let lo := if n = 0xE0 then 0xA0 else if n = 0xF0 then 0x90 else 0x80
  let hi := if n = 0xED then 0x9F else if n = 0xF4 then 0x8F else 0xBF
  lo ≤ c1.toNat && c1.toNat ≤ hi

/-- The replacement character U+FFFD in UTF-8. -/
def replacementBytes : Bytes := [0xEF, 0xBF, 0xBD]

/-- One step of the unquoting loop at the head of the remaining literal: the
bytes written and the number of bytes of the literal consumed (`1` when the
literal is empty). An escape is replaced; a `\u` high surrogate followed by a
`\u` low surrogate is one rune; a lone surrogate and an ill-formed UTF-8 byte
become U+FFFD; a well-formed UTF-8 sequence is copied. -/
def unquoteUnit (s : Bytes) : Bytes × Nat :=
  match s with
  | [] => ([], 1)
  | c :: rest =>
    if c = 0x5C then
      match rest with
      | [] => ([], 1)
      | e :: rest1 =>
        if e = 0x75 then
          match rest1 with
          | a :: b :: c1 :: d :: rest2 =>
            let rr := getu4 a b c1 d
            if 0xD800 ≤ rr ∧ rr < 0xE000 then
              match rest2 with
              | b0 :: u0 :: a2 :: b2 :: c2 :: d2 :: _ =>
                let rr1 := getu4 a2 b2 c2 d2
                if b0 = 0x5C ∧ u0 = 0x75 ∧ isHex a2 ∧ isHex b2 ∧ isHex c2 ∧ isHex d2
                    ∧ rr < 0xDC00 ∧ 0xDC00 ≤ rr1 ∧ rr1 < 0xE000 then
                  (encodeRune ((rr - 0xD800) * 1024 + (rr1 - 0xDC00) + 0x10000), 12)
                else (replacementBytes, 6)
              | _ => (replacementBytes, 6)
            else (encodeRune rr, 6)
          | _ => ([], 2)
        else ([simpleEscape e], 2)
    else if c.toNat < 0x80 then ([c], 1)
    else
      match utf8Need c, rest with
      | 2, c1 :: _ =>
        if isCont c1 then ([c, c1], 2) else (replacementBytes, 1)
      | 3, c1 :: c2 :: _ =>
        if secondOk c c1 ∧ isCont c2 then ([c, c1, c2], 3) else (replacementBytes, 1)
      | 4, c1 :: c2 :: c3 :: _ =>
        if secondOk c c1 ∧ isCont c2 ∧ isCont c3 then ([c, c1, c2, c3], 4)
        else (replacementBytes, 1)
      | _, _ => (replacementBytes, 1)

/-- The unquoting loop: `skip` counts the bytes that the previous step has
already consumed. -/
def unquoteFrom : Nat → Bytes → Bytes
  | _, [] => []
  | skip + 1, _ :: rest => unquoteFrom skip rest
  | 0, c :: rest =>
    (unquoteUnit (c :: rest)).1 ++ unquoteFrom ((unquoteUnit (c :: rest)).2 - 1) rest

/-- Contents of a string literal (the bytes between the quotes) to the string it
denotes (`unquoteBytes`). -/
def unquote (s : Bytes) : Bytes := unquoteFrom 0 s

/-! ## `encoding/json`: the validity scanner (`scanner.go`)

The scanner is a machine that is fed one byte at a time. Its state is the step
function that awaits the next byte and the stack of containers that are open.
Here every state also holds what has been read of the value under construction,
so that the accepted document comes out as a `JSON` tree. -/

/-- An open container (`parseState` entry). `object ms none`: the next key, or
after a member value the separator, is awaited (`parseObjectKey` before the key,
`parseObjectValue` after the value); `object ms (some k)`: key `k` has been
read and its colon or its value is awaited; `array xs`: `parseArrayValue`. -/
inductive Frame where
  | object (ms : List (Bytes × JSON)) (key : Option Bytes)
  | array (xs : List JSON)

/-- The step functions of the scanner. String states hold the bytes read since
the opening quote, number states the literal read so far, `literal` the bytes
of `true`, `false` or `null` still awaited and the value they give. -/
inductive Step where
  | beginValue
  | beginValueOrEmpty
  | beginStringOrEmpty
  | beginString
  | endValue
  | endTop
  | inString (raw : Bytes)
  | inStringEsc (raw : Bytes)
  | inStringEscU (raw : Bytes) (awaited : Nat)
  | neg (lit : Bytes)
  | zero (lit : Bytes)
  | int (lit : Bytes)
  | dot (lit : Bytes)
  | dot0 (lit : Bytes)
  | e (lit : Bytes)
  | eSign (lit : Bytes)
  | e0 (lit : Bytes)
  | literal (awaited : Bytes) (v : JSON)

/-- Scanner state: the current step function, the open containers (innermost
first) and, once the top-level value is complete, that value. -/
structure Scanner where
  step : Step
  parseState : List Frame
  top : Option JSON

/-- Nesting limit of the scanner (`maxNestingDepth`). -/
def maxNestingDepth : Nat := 10000

/-- White space between tokens (`isSpace`). -/
def isSpace (c : UInt8) : Bool := c = 0x20 || c = 0x09 || c = 0x0D || c = 0x0A

/-- Decimal digit. -/
def isDigit (c : UInt8) : Bool := 0x30 ≤ c.toNat && c.toNat ≤ 0x39

/-- A value is complete: it is the top-level value, a key of the innermost
object, the value of its pending key, or the next element of the innermost
array. Only string literals are scanned where a key is awaited. -/
def finishValue (v : JSON) (stack : List Frame) : Option Scanner :=
  match stack with
  | [] => some ⟨Step.endTop, [], some v⟩
  | Frame.object ms none :: rest =>
    match v with
    | JSON.str k => some ⟨Step.endValue, Frame.object ms (some k) :: rest, none⟩
    | _ => none
  | Frame.object ms (some k) :: rest =>
    some ⟨Step.endValue, Frame.object (ms ++ [(k, v)]) none :: rest, none⟩
  | Frame.array xs :: rest => some ⟨Step.endValue, Frame.array (xs ++ [v]) :: rest, none⟩

/-- Step `stateEndValue`: the byte after a value. With no container open the
top-level value is complete and only white space may follow; after a key the
byte must be a colon; after a member value a comma or the closing brace; after
an array element a comma or the closing bracket. `none` is a scanning error. -/
def stateEndValue (s : Scanner) (c : UInt8) : Option Scanner :=
  match s.parseState with
  | [] => if isSpace c then some ⟨Step.endTop, [], s.top⟩ else none
  | Frame.object ms (some k) :: rest =>
    if isSpace c then some ⟨Step.endValue, s.parseState, none⟩
    else if c = 0x3A then some ⟨Step.beginValue, Frame.object ms (some k) :: rest, none⟩
    else none
  | Frame.object ms none :: rest =>
    if isSpace c then some ⟨Step.endValue, s.parseState, none⟩
    else if c = 0x2C then some ⟨Step.beginString, Frame.object ms none :: rest, none⟩
    else if c = 0x7D then finishValue (JSON.obj ms) rest
    else none
  | Frame.array xs :: rest =>
    if isSpace c then some ⟨Step.endValue, s.parseState, none⟩
    else if c = 0x2C then some ⟨Step.beginValue, Frame.array xs :: rest, none⟩
    else if c = 0x5D then finishValue (JSON.arr xs) rest
    else none

/-- Step `stateBeginValue`: the first byte of a value. -/
def stateBeginValue (stack : List Frame) (c : UInt8) : Option Scanner :=
  if isSpace c then some ⟨Step.beginValue, stack, none⟩
  else if c = 0x7B then
    if stack.length + 1 ≤ maxNestingDepth
    then some ⟨Step.beginStringOrEmpty, Frame.object [] none :: stack, none⟩ else none
  else if c = 0x5B then
    if stack.length + 1 ≤ maxNestingDepth
    then some ⟨Step.beginValueOrEmpty, Frame.array [] :: stack, none⟩ else none
  else if c = 0x22 then some ⟨Step.inString [], stack, none⟩
  else if c = 0x2D then some ⟨Step.neg [c], stack, none⟩
  else if c = 0x30 then some ⟨Step.zero [c], stack, none⟩
  else if c = 0x74 then some ⟨Step.literal (ascii "rue") (JSON.bool true), stack, none⟩
  else if c = 0x66 then some ⟨Step.literal (ascii "alse") (JSON.bool false), stack, none⟩
  else if c = 0x6E then some ⟨Step.literal (ascii "ull") JSON.null, stack, none⟩
  else if isDigit c then some ⟨Step.int [c], stack, none⟩
  else none

/-- A number literal ends at byte `c`, which is then handled as the byte after
a value. -/
def endNumber (lit : Bytes) (stack : List Frame) (c : UInt8) : Option Scanner :=
  match finishValue (JSON.num lit) stack with
  | none => none
  | some s => stateEndValue s c

/-- One transition of the scanner on byte `c`; `none` is a scanning error. -/
def scanStep (s : Scanner) (c : UInt8) : Option Scanner :=
  match s.step with
  | Step.beginValue => stateBeginValue s.parseState c
  | Step.beginValueOrEmpty =>
    if isSpace c then some s
    else if c = 0x5D then stateEndValue s c
    else stateBeginValue s.parseState c
  | Step.beginStringOrEmpty =>
    if isSpace c then some s
    else if c = 0x7D then stateEndValue s c
    else if c = 0x22 then some ⟨Step.inString [], s.parseState, none⟩
    else none
  | Step.beginString =>
    if isSpace c then some s
    else if c = 0x22 then some ⟨Step.inString [], s.parseState, none⟩
    else none
  | Step.endValue => stateEndValue s c
  | Step.endTop => if isSpace c then some s else none
  | Step.inString raw =>
    if c = 0x22 then finishValue (JSON.str (unquote raw)) s.parseState
    else if c = 0x5C then some ⟨Step.inStringEsc (raw ++ [c]), s.parseState, none⟩
    else if c.toNat < 0x20 then none
    else some ⟨Step.inString (raw ++ [c]), s.parseState, none⟩
  | Step.inStringEsc raw =>
    if c = 0x62 ∨ c = 0x66 ∨ c = 0x6E ∨ c = 0x72 ∨ c = 0x74 ∨ c = 0x5C ∨ c = 0x2F ∨ c = 0x22
    then some ⟨Step.inString (raw ++ [c]), s.parseState, none⟩
    else if c = 0x75 then some ⟨Step.inStringEscU (raw ++ [c]) 4, s.parseState, none⟩
    else none
  | Step.inStringEscU raw awaited =>
    if isHex c then
      if awaited ≤ 1 then some ⟨Step.inString (raw ++ [c]), s.parseState, none⟩
      else some ⟨Step.inStringEscU (raw ++ [c]) (awaited - 1), s.parseState, none⟩
    else none
  | Step.neg lit =>
    if c = 0x30 then some ⟨Step.zero (lit ++ [c]), s.parseState, none⟩
    else if isDigit c then some ⟨Step.int (lit ++ [c]), s.parseState, none⟩
    else none
  | Step.int lit =>
    if isDigit c then some ⟨Step.int (lit ++ [c]), s.parseState, none⟩
    else if c = 0x2E then some ⟨Step.dot (lit ++ [c]), s.parseState, none⟩
    else if c = 0x65 ∨ c = 0x45 then some ⟨Step.e (lit ++ [c]), s.parseState, none⟩
    else endNumber lit s.parseState c
  | Step.zero lit =>
    if c = 0x2E then some ⟨Step.dot (lit ++ [c]), s.parseState, none⟩
    else if c = 0x65 ∨ c = 0x45 then some ⟨Step.e (lit ++ [c]), s.parseState, none⟩
    else endNumber lit s.parseState c
  | Step.dot lit =>
    if isDigit c then some ⟨Step.dot0 (lit ++ [c]), s.parseState, none⟩ else none
  | Step.dot0 lit =>
    if isDigit c then some ⟨Step.dot0 (lit ++ [c]), s.parseState, none⟩
    else if c = 0x65 ∨ c = 0x45 then some ⟨Step.e (lit ++ [c]), s.parseState, none⟩
    else endNumber lit s.parseState c
  | Step.e lit =>
    if c = 0x2B ∨ c = 0x2D then some ⟨Step.eSign (lit ++ [c]), s.parseState, none⟩
    else if isDigit c then some ⟨Step.e0 (lit ++ [c]), s.parseState, none⟩
    else none
  | Step.eSign lit =>
    if isDigit c then some ⟨Step.e0 (lit ++ [c]), s.parseState, none⟩ else none
  | Step.e0 lit =>
    if isDigit c then some ⟨Step.e0 (lit ++ [c]), s.parseState, none⟩
    else endNumber lit s.parseState c
  | Step.literal awaited v =>
    match awaited with
    | [] => none
    | [a] => if c = a then finishValue v s.parseState else none
    | a :: more => if c = a then some ⟨Step.literal more v, s.parseState, none⟩ else none

/-- Feeds the bytes of the input to the scanner, stopping at the first error. -/
def scanBytes : Scanner → Bytes → Option Scanner
  | s, [] => some s
  | s, c :: rest =>
    match scanStep s c with
    | none => none
    | some s1 => scanBytes s1 rest

/-- End of input (`eof`): the document is complete, or it is a top-level number
that the end of input terminates. -/
def scanEof (s : Scanner) : Option Scanner :=
  match s.step with
  | Step.endTop => some s
  | _ =>
    match scanStep s 0x20 with
    | some s1 => (match s1.step with | Step.endTop => some s1 | _ => none)
    | none => none

/-- The document a byte sequence denotes (`checkValid` and the value it
accepts), or `none` when the bytes are not one valid JSON value. -/
def scan (j : Bytes) : Option JSON :=
  match scanBytes ⟨Step.beginValue, [], none⟩ j with
  | none => none
  | some s =>
    match scanEof s with
    | none => none
    | some s1 => s1.top

/-! ## `encoding/json`: storing a document into the structs of the program -/

/-- Decimal value of a string of digits, most significant first; `none` when
the string is empty or holds another byte. -/
def parseDigits (ds : Bytes) : Option Nat :=
  if ds = [] ∨ ¬ ds.all isDigit then none
  else some (ds.foldl (fun acc d => acc * 10 + (d.toNat - 0x30)) 0)

/-- An optional sign followed by decimal digits, as `strconv` reads it; `none`
is its error `ErrSyntax`. -/
def signedDecimal (s : Bytes) : Option Int :=
  match s with
  | [] => none
  | c :: rest =>
    if c = 0x2D then (parseDigits rest).map (fun n => - (n : Int))
    else if c = 0x2B then (parseDigits rest).map (fun n => (n : Int))
    else (parseDigits s).map (fun n => (n : Int))

/-- Smallest value of a Go `int` (64 bits). -/
def minInt : Int := - (2 : Int) ^ 63

/-- Largest value of a Go `int` (64 bits). -/
def maxInt : Int := (2 : Int) ^ 63 - 1

/-- Model of `strconv.ParseInt(s, 10, 64)` as the decoder uses it: an optional
sign, then decimal digits only, and a value in the range of a 64-bit signed
integer; `none` when `ParseInt` reports an error. -/
def parseInt64 (lit : Bytes) : Option Int :=
  match signedDecimal lit with
  | none => none
  | some v => if minInt ≤ v ∧ v ≤ maxInt then some v else none

/-- Upper-case form of an ASCII letter; other bytes are unchanged. -/
def foldByte (c : UInt8) : UInt8 :=
  if 0x61 ≤ c.toNat ∧ c.toNat ≤ 0x7A then UInt8.ofNat (c.toNat - 0x20) else c

/-- Key matching of the decoder for a struct field whose name is made of ASCII
letters other than `k` and `s`: the key is the name up to the case of ASCII
letters. An exact match is preferred by the decoder, but each struct of this
program has a single field, so the preference never chooses between fields. -/
def keyMatches (key : Bytes) (name : String) : Bool :=
  key.map foldByte == (ascii name).map foldByte

/-- InfoDetails is the struct `InfoDetails`: its field `PID` has the JSON name
`pid`. -/
structure InfoDetails where
  PID : Int
  deriving DecidableEq, Repr

/-- InspectResponse is the struct `InspectResponse`: its field `Info` has the
JSON name `info`. -/
structure InspectResponse where
  Info : InfoDetails
  deriving DecidableEq, Repr

/-- Stores a JSON value into an `int` field: `null` leaves the field as it is,
an integer literal in range is stored, anything else is a type error. -/
def storeInt (field : String) (v : JSON) (cur : Int) : Except JsonError Int :=
  match v with
  | JSON.null => Except.ok cur
  | JSON.num lit =>
    match parseInt64 lit with
    | some n => Except.ok n
    | none => Except.error (JsonError.unmarshalTypeError field)
  | _ => Except.error (JsonError.unmarshalTypeError field)

/-- Stores the members of an object into an `InfoDetails`, in document order:
a member whose key matches `pid` is stored into `PID`, any other is skipped. -/
def storeInfoDetailsMembers : List (Bytes × JSON) → InfoDetails → Except JsonError InfoDetails
  | [], cur => Except.ok cur
  | (k, v) :: rest, cur =>
    if keyMatches k "pid" then
      match storeInt "pid" v cur.PID with
      | Except.ok n => storeInfoDetailsMembers rest ⟨n⟩
      | Except.error e => Except.error e
    else storeInfoDetailsMembers rest cur

/-- Stores a JSON value into an `InfoDetails`: `null` leaves it as it is, an
object is stored member by member, anything else is a type error. -/
def storeInfoDetails (field : String) (v : JSON) (cur : InfoDetails) :
    Except JsonError InfoDetails :=
  match v with
  | JSON.null => Except.ok cur
  | JSON.obj ms => storeInfoDetailsMembers ms cur
  | _ => Except.error (JsonError.unmarshalTypeError field)

/-- Stores the members of an object into an `InspectResponse`, in document
order: a member whose key matches `info` is stored into `Info` (on top of what
an earlier such member has stored), any other is skipped. -/
def storeInspectResponseMembers :
    List (Bytes × JSON) → InspectResponse → Except JsonError InspectResponse
  | [], cur => Except.ok cur
  | (k, v) :: rest, cur =>
    if keyMatches k "info" then
      match storeInfoDetails "info" v cur.Info with
      | Except.ok i => storeInspectResponseMembers rest ⟨i⟩
      | Except.error e => Except.error e
    else storeInspectResponseMembers rest cur

/-- Stores a JSON value into an `InspectResponse`. -/
def storeInspectResponse (v : JSON) (cur : InspectResponse) :
    Except JsonError InspectResponse :=
  match v with
  | JSON.null => Except.ok cur
  | JSON.obj ms => storeInspectResponseMembers ms cur
  | _ => Except.error (JsonError.unmarshalTypeError "")

/-- Model of `json.Unmarshal(j, &resp)` for `var resp InspectResponse`: the
bytes are checked to be one valid JSON value, which is then stored into the
zero value of the struct. -/
def unmarshalInspectResponse (j : Bytes) : Except JsonError InspectResponse :=
  match scan j with
  | none => Except.error JsonError.invalidDocument
  | some doc => storeInspectResponse doc ⟨⟨0⟩⟩

/-- Model of `json.Unmarshal(j, &resp)` for `var resp InfoDetails`. -/
def unmarshalInfoDetails (j : Bytes) : Except JsonError InfoDetails :=
  match scan j with
  | none => Except.error JsonError.invalidDocument
  | some doc => storeInfoDetails "" doc ⟨0⟩

/-! ## `parsePIDFromJSON` -/

/-- Error values the helper returns. -/
inductive Err where
  /-- An error of `json.Unmarshal`, returned as it is. -/
  | json (e : JsonError)
  /-- Message `[cri] Could not find pid field in json: <j>`. -/
  | couldNotFindPid (j : Bytes)
  /-- Message `no supported container runtime, runtime: <runtime>`. -/
  | noSupportedRuntime (runtime : Bytes)
  /-- Message `[cri] no running target container found, pid: <string(pid)>`. -/
  | noRunningTarget (pid : Int)
  /-- Message `unable to get the pod`. -/
  | unableToGetPod
  /-- An error reported by a collaborator (an external command that failed, the
  Kubernetes client); `code` tells such errors apart. -/
  | external (code : Nat)
  deriving DecidableEq, Repr

/-- parsePIDFromJSON extracts the pid from the json output: for `containerd` it
is `info.pid`, for `crio` the top-level `pid`; any other runtime, a document
that cannot be stored, and pid `0` are errors. `decoded` is the value of the
variable `pid` after the three-way branch, or the error a branch returns. -/
def parsePIDFromJSON (j : Bytes) (runtime : Bytes) : Int × Option Err :=
  let decoded : Except Err Int :=
    if runtime = ascii "containerd" then
      match unmarshalInspectResponse j with
      | Except.error err => Except.error (Err.json err)
      | Except.ok resp => Except.ok resp.Info.PID
    else if runtime = ascii "crio" then
      match unmarshalInfoDetails j with
      | Except.error _ => Except.error (Err.couldNotFindPid j)
      | Except.ok resp => Except.ok resp.PID
    else Except.error (Err.noSupportedRuntime runtime)
  match decoded with
  | Except.error err => (0, some err)
  | Except.ok pid => if pid = 0 then (0, some (Err.noRunningTarget pid)) else (pid, none)

/-! ## Text the helper builds -/

/-- Decimal digits of a natural number. -/
def natDigits (n : Nat) : Bytes := (Nat.toDigits 10 n).map (fun c => UInt8.ofNat c.toNat)

/-- The verb `%d` of `fmt.Sprintf` applied to an `int`. -/
def sprintD (i : Int) : Bytes :=
  if i < 0 then 0x2D :: natDigits i.natAbs else natDigits i.natAbs

/-- Pieces of `s` between the successive, non-overlapping occurrences of `sep`
found from the left; `skip` counts the bytes of the occurrence just found that
are still to be passed over and `cur` is the piece under construction. -/
def splitFrom (sep : Bytes) : Nat → Bytes → Bytes → List Bytes
  | _, cur, [] => [cur]
  | skip + 1, cur, _ :: rest => splitFrom sep skip cur rest
  | 0, cur, c :: rest =>
    if sep <+: c :: rest then cur :: splitFrom sep (sep.length - 1) [] rest
    else splitFrom sep 0 (cur ++ [c]) rest

/-- Model of `strings.Split(s, sep)` for a non-empty separator. -/
def Split (s sep : Bytes) : List Bytes := splitFrom sep 0 [] s

/-- Model of `strconv.Atoi` with its error dropped, as `GetENV` calls it: the
value `0` on a text that is not a decimal integer, the nearest bound of `int`
on a value out of range. -/
def Atoi (s : Bytes) : Int :=
  match signedDecimal s with
  | none => 0
  | some v => if v < minInt then minInt else if maxInt < v then maxInt else v

/-! ## Data of the helper and its surroundings -/

/-- ExperimentDetails holds the fields of `experimentTypes.ExperimentDetails`
that `GetENV` fills. -/
structure ExperimentDetails where
  ExperimentName : Bytes
  AppNS : Bytes
  TargetContainer : Bytes
  TargetPod : Bytes
  AppLabel : Bytes
  ChaosDuration : Int
  ChaosNamespace : Bytes
  EngineName : Bytes
  ChaosUID : Bytes
  ChaosPodName : Bytes
  ContainerRuntime : Bytes
  NetworkInterface : Bytes

/-- One entry of `pod.Status.ContainerStatuses`: the fields the helper reads. -/
structure ContainerStatus where
  Name : Bytes
  ContainerID : Bytes

/-- How the `select` of the wait loop resolves: the signal channel delivers
first, or the timer channel does. -/
inductive WaitResolution where
  | signal
  | timer
  deriving DecidableEq, Repr

/-- Answers of everything outside the process during one run. -/
structure World where
  /-- Result of `clients.GenerateClientSetFromKubeConfig()`. -/
  generateClientSet : Option Err
  /-- Environment of the process (`os.Getenv`). -/
  getenv : Bytes → Bytes
  /-- Result of `Pods(ns).Get(pod)`: the container statuses, or `none` on error. -/
  getPod : Bytes → Bytes → Option (List ContainerStatus)
  /-- Combined output and error of `crictl inspect <id>`. -/
  crictlInspect : Bytes → Bytes × Option Err
  /-- Combined output and error of `/bin/bash -c <command>`. -/
  bash : Bytes → Bytes × Option Err
  /-- Result of `tc.Killnetem(pid)` of package `network_latency/tc`. -/
  tcKillnetem : Int → Option Err
  /-- Which case of the `select` fires. -/
  wait : WaitResolution

/-- Effects of a run that are visible outside the process, in program order. -/
inductive Event where
  /-- Call `Pods(ns).Get(pod)`. -/
  | getPod (ns pod : Bytes)
  /-- Run `crictl inspect <containerID>`. -/
  | crictlInspect (containerID : Bytes)
  /-- Call `events.GenerateEvents` with reason `ChaosInject` and the message. -/
  | generateEventsChaosInject (msg : Bytes)
  /-- Run `/bin/bash -c <command>`. -/
  | bash (command : Bytes)
  /-- Call `time.After(timeDelay)` and enter the `select`. -/
  | timeAfter (timeDelay : Int)
  /-- The `select` has resolved. -/
  | selected (r : WaitResolution)
  /-- Call `tc.Killnetem(pid)`. -/
  | tcKillnetem (pid : Int)
  /-- Call `os.Exit(code)`. -/
  | osExit (code : Nat)
  /-- Call `log.Fatalf`. -/
  | logFatalf
  deriving DecidableEq, Repr

/-- How a function call ends: it returns a value, it panics, or the process
exits inside it. -/
inductive Outcome (α : Type) where
  | returned (a : α)
  | panicked
  | exited (code : Nat)
  deriving DecidableEq, Repr

/-- Wrap-around of 64-bit signed arithmetic. -/
def wrapInt64 (x : Int) : Int := (x + 2 ^ 63) % 2 ^ 64 - 2 ^ 63

/-! ## The functions of `netem.go` -/

/-- Getenv fetches the env and sets the default value, if any. -/
def Getenv (w : World) (key : Bytes) (defaultValue : Bytes) : Bytes :=
  let value := w.getenv key
  if value = [] then defaultValue else value

/-- GetENV fetches all the env variables from the runner pod. -/
def GetENV (w : World) : ExperimentDetails :=
  { ExperimentName := Getenv w (ascii "EXPERIMENT_NAME") []
    AppNS := Getenv w (ascii "APP_NS") []
    TargetContainer := Getenv w (ascii "APP_CONTAINER") []
    TargetPod := Getenv w (ascii "APP_POD") []
    AppLabel := Getenv w (ascii "APP_LABEL") []
    ChaosDuration := Atoi (Getenv w (ascii "TOTAL_CHAOS_DURATION") (ascii "30"))
    ChaosNamespace := Getenv w (ascii "CHAOS_NAMESPACE") (ascii "litmus")
    EngineName := Getenv w (ascii "CHAOS_ENGINE") []
    ChaosUID := Getenv w (ascii "CHAOS_UID") []
    ChaosPodName := Getenv w (ascii "POD_NAME") []
    ContainerRuntime := Getenv w (ascii "CONTAINER_RUNTIME") []
    NetworkInterface := Getenv w (ascii "NETWORK_INTERFACE") (ascii "eth0") }

/-- The loop of `GetPID` over the container statuses: the first status whose
name is the target container gives `strings.Split(ContainerID, "//")[1]`, and
indexing panics when the split has fewer than two pieces; with no such status
the identifier stays empty. -/
def findContainerID (target : Bytes) : List ContainerStatus → Outcome Bytes
  | [] => Outcome.returned []
  | container :: rest =>
    if container.Name = target then
      match Split container.ContainerID (ascii "//") with
      | _ :: id :: _ => Outcome.returned id
      | _ => Outcome.panicked
    else findContainerID target rest

/-- GetPID extracts the pid of the target container: it reads the pod (any
error becomes `unable to get the pod`), takes the container identifier from the
statuses, runs `crictl inspect` on it and parses the output. -/
def GetPID (w : World) (experimentDetails : ExperimentDetails) :
    List Event × Outcome (Int × Option Err) :=
  let t1 := [Event.getPod experimentDetails.AppNS experimentDetails.TargetPod]
  match w.getPod experimentDetails.AppNS experimentDetails.TargetPod with
  | none => (t1, Outcome.returned (0, some Err.unableToGetPod))
  | some statuses =>
    match findContainerID experimentDetails.TargetContainer statuses with
    | Outcome.panicked => (t1, Outcome.panicked)
    | Outcome.exited code => (t1, Outcome.exited code)
    | Outcome.returned containerID =>
      let t2 := t1 ++ [Event.crictlInspect containerID]
      match w.crictlInspect containerID with
      | (_, some err) => (t2, Outcome.returned (0, some err))
      | (out, none) =>
        match parsePIDFromJSON out experimentDetails.ContainerRuntime with
        | (_, some err) => (t2, Outcome.returned (0, some err))
        | (PID, none) => (t2, Outcome.returned (PID, none))

/-- The command line `InjectChaos` hands to the shell. -/
def injectChaosCommand (w : World) (experimentDetails : ExperimentDetails) (pid : Int) : Bytes :=
  let tc := ascii "nsenter -t " ++ sprintD pid ++ ascii " -n tc qdisc add dev "
    ++ experimentDetails.NetworkInterface ++ ascii " root netem "
  tc ++ w.getenv (ascii "NETEM_COMMAND")

/-- InjectChaos injects the network chaos in the target container. -/
def InjectChaos (w : World) (experimentDetails : ExperimentDetails) (pid : Int) :
    List Event × Option Err :=
  let tc := injectChaosCommand w experimentDetails pid
  ([Event.bash tc], (w.bash tc).2)

/-- The command line `Killnetem` hands to the shell. -/
def killnetemCommand (PID : Int) : Bytes :=
  ascii "nsenter -t " ++ sprintD PID ++ ascii " -n tc qdisc delete dev eth0 root"

/-- Killnetem kills the netem process for all the target containers. -/
def Killnetem (w : World) (PID : Int) : List Event × Option Err :=
  let tc := killnetemCommand PID
  ([Event.bash tc], (w.bash tc).2)

/-- PreparePodNetworkChaos contains the preparation steps before chaos
injection, the wait, and the removal. The event is recorded in the chaos engine
before `InjectChaos` is called. The loop around the `select` runs once: its
first case (a signal) calls `tc.Killnetem`, only logs its error and ends the
process with `os.Exit(1)`; its second case (the timer) breaks out of the loop,
after which `tc.Killnetem` is called and its error returned. -/
def PreparePodNetworkChaos (w : World) (experimentsDetails : ExperimentDetails) :
    List Event × Outcome (Option Err) :=
  match GetPID w experimentsDetails with
  | (t1, Outcome.panicked) => (t1, Outcome.panicked)
  | (t1, Outcome.exited code) => (t1, Outcome.exited code)
  | (t1, Outcome.returned (_, some err)) => (t1, Outcome.returned (some err))
  | (t1, Outcome.returned (targetPID, none)) =>
    let t2 :=
      if experimentsDetails.EngineName ≠ [] then
        [Event.generateEventsChaosInject
          (ascii "Injecting " ++ experimentsDetails.ExperimentName
            ++ ascii " chaos on application pod")]
      else []
    let timeDelay := wrapInt64 (wrapInt64 experimentsDetails.ChaosDuration * 1000000000)
    match InjectChaos w experimentsDetails targetPID with
    | (t3, some err) => (t1 ++ t2 ++ t3, Outcome.returned (some err))
    | (t3, none) =>
      let t4 := t1 ++ t2 ++ t3 ++ [Event.timeAfter timeDelay, Event.selected w.wait]
      match w.wait with
      | WaitResolution.signal =>
        (t4 ++ [Event.tcKillnetem targetPID, Event.osExit 1], Outcome.exited 1)
      | WaitResolution.timer =>
        match w.tcKillnetem targetPID with
        | some err => (t4 ++ [Event.tcKillnetem targetPID], Outcome.returned (some err))
        | none => (t4 ++ [Event.tcKillnetem targetPID], Outcome.returned none)

/-- Modelled from the spec: `log.Fatalf` of package `pkg/log`, whose source is
not part of the helper, logs the error and ends the process with a non-zero
exit status ("errors are logged ... and the process exits non-zero"); the
status is `1`. -/
def logFatalfStatus : Nat := 1

/-- Exit status of a Go process that ends by a panic. -/
def panicStatus : Nat := 2

/-- The function `main`: the events of the run and the exit status of the
process. -/
def main (w : World) : List Event × Nat :=
  match w.generateClientSet with
  | some _ => ([Event.logFatalf], logFatalfStatus)
  | none =>
    let experimentsDetails := GetENV w
    match PreparePodNetworkChaos w experimentsDetails with
    | (t, Outcome.returned none) => (t, 0)
    | (t, Outcome.returned (some _)) => (t ++ [Event.logFatalf], logFatalfStatus)
    | (t, Outcome.exited code) => (t, code)
    | (t, Outcome.panicked) => (t, panicStatus)

/-! ## Notions used to state the properties -/

/-- Values of the members of an object whose key the decoder takes for the
field `name`, in document order. -/
def matchingValues (ms : List (Bytes × JSON)) (name : String) : List JSON :=
  (ms.filter (fun m => keyMatches m.1 name)).map Prod.snd

/-- The value is `null` or a number literal that reads as the integer `0`. -/
def nullOrZero : JSON → Bool
  | JSON.null => true
  | JSON.num lit => parseInt64 lit = some 0
  | _ => false

/-- The document gives an `InfoDetails` no pid: it is `null`, or an object in
which every member taken for `pid` (there may be none) is `null` or `0`. -/
def givesNoPid : JSON → Bool
  | JSON.null => true
  | JSON.obj ms => (matchingValues ms "pid").all nullOrZero
  | _ => false

/-- The document gives an `InspectResponse` no pid: it is `null`, or an object
in which every member taken for `info` (there may be none) gives no pid. -/
def givesNoInfoPid : JSON → Bool
  | JSON.null => true
  | JSON.obj ms => (matchingValues ms "info").all givesNoPid
  | _ => false

/-- The event is a call of the removal operation `tc.Killnetem`. -/
def isRemoval : Event → Bool
  | Event.tcKillnetem _ => true
  | _ => false

/-- The event is the lifecycle-start (`ChaosInject`) notification. -/
def isNotification : Event → Bool
  | Event.generateEventsChaosInject _ => true
  | _ => false

/-- The event runs a shell command. -/
def isBash : Event → Bool
  | Event.bash _ => true
  | _ => false

/-- The duration handed to `time.After`. -/
def timeDelay (experimentsDetails : ExperimentDetails) : Int :=
  wrapInt64 (wrapInt64 experimentsDetails.ChaosDuration * 1000000000)

/-- The events of the lifecycle-start notification: one event when the engine
name is set, none otherwise. -/
def notification (experimentsDetails : ExperimentDetails) : List Event :=
  if experimentsDetails.EngineName ≠ [] then
    [Event.generateEventsChaosInject
      (ascii "Injecting " ++ experimentsDetails.ExperimentName
        ++ ascii " chaos on application pod")]
  else []

/-- A `tc qdisc` command line inside the network namespace of `pid`: the verb
(`add`, `delete`), the device, and what follows the word `root`. -/
def tcQdiscCommand (pid : Int) (verb device tail : Bytes) : Bytes :=
  ascii "nsenter -t " ++ sprintD pid ++ ascii " -n tc qdisc " ++ verb ++ ascii " dev "
    ++ device ++ ascii " root" ++ tail

/-! ## Concrete inputs -/

/-- Inspection output `{"info":{"pid":7},"Info":{"pid":0}}`. -/
def caseVariantInfoOutput : Bytes :=
  ascii "\x7b\"info\":\x7b\"pid\":7\x7d,\"Info\":\x7b\"pid\":0\x7d\x7d"

/-- Inspection output `{"info":{"pid":7},"INFO":"x"}`. -/
def mistypedInfoOutput : Bytes := ascii "\x7b\"info\":\x7b\"pid\":7\x7d,\"INFO\":\"x\"\x7d"

/-- Inspection output `{"pid":7,"Pid":"x"}`. -/
def mistypedPidOutput : Bytes := ascii "\x7b\"pid\":7,\"Pid\":\"x\"\x7d"

/-- Inspection output `{"PID":7}`: no member has the key `pid`. -/
def upperCasePidOutput : Bytes := ascii "\x7b\"PID\":7\x7d"

/-- Inspection output `{"Info":{"Pid":7}}`: no member has the key `info`, and
no member of the nested object has the key `pid`. -/
def capitalisedInfoOutput : Bytes := ascii "\x7b\"Info\":\x7b\"Pid\":7\x7d\x7d"

/-- Inspection output `{"pid":7,"PID":0}`. -/
def caseVariantPidOutput : Bytes := ascii "\x7b\"pid\":7,\"PID\":0\x7d"

/-- Inspection output `{"pid":1,"info":{"pid":4321,"state":["running",1.5]},"x":null}`. -/
def containerdOutput : Bytes :=
  ascii ("\x7b\"pid\":1,\"info\":\x7b\"pid\":4321,\"state\":[\"running\",1.5]\x7d,"
    ++ "\"x\":null\x7d")

/-- Inspection output `{"info":{"pid":1},"pid":-77,"status":{"pid":5}}`. -/
def crioOutput : Bytes :=
  ascii "\x7b\"info\":\x7b\"pid\":1\x7d,\"pid\":-77,\"status\":\x7b\"pid\":5\x7d\x7d"

/-- A run on a pod with a sidecar and the target container `nginx`, whose
inspection reports pid 4321; the shell, the wait and `tc.Killnetem` answer as
given. -/
def sampleWorld (bashErr : Option Err) (wait : WaitResolution) (killErr : Option Err) : World :=
  { generateClientSet := none
    getenv := fun key =>
      if key = ascii "EXPERIMENT_NAME" then ascii "pod-network-latency"
      else if key = ascii "APP_NS" then ascii "default"
      else if key = ascii "APP_CONTAINER" then ascii "nginx"
      else if key = ascii "APP_POD" then ascii "nginx-0"
      else if key = ascii "CHAOS_ENGINE" then ascii "engine"
      else if key = ascii "CONTAINER_RUNTIME" then ascii "containerd"
      else if key = ascii "NETWORK_INTERFACE" then ascii "eth1"
      else if key = ascii "NETEM_COMMAND" then ascii "delay 100ms"
      else []
    getPod := fun _ _ =>
      some [⟨ascii "sidecar", ascii "containerd://0f0f"⟩, ⟨ascii "nginx", ascii "containerd://a1b2"⟩]
    crictlInspect := fun _ => (containerdOutput, none)
    bash := fun _ => ([], bashErr)
    tcKillnetem := fun _ => killErr
    wait := wait }

set_option maxRecDepth 100000

/-! ## The scanner and the decoder on sample documents -/

theorem scan_accepts :
    scan (ascii " [1, -2.5e+3, true, null, \"a\\n\\u0041\"] ")
        = some (JSON.arr [JSON.num (ascii "1"), JSON.num (ascii "-2.5e+3"), JSON.bool true,
            JSON.null, JSON.str [0x61, 0x0A, 0x41]])
    ∧ scan (ascii "\x7b\"a\":\x7b\x7d,\"a\":[[]]\x7d")
        = some (JSON.obj [(ascii "a", JSON.obj []), (ascii "a", JSON.arr [JSON.arr []])])
    ∧ scan (ascii "0") = some (JSON.num (ascii "0"))
    ∧ scan (ascii "\"\\ud83d\\ude00\"") = some (JSON.str [0xF0, 0x9F, 0x98, 0x80]) :=
  ⟨rfl, rfl, rfl, rfl⟩

theorem scan_rejects :
    scan [] = none
    ∧ scan (ascii "[1,]") = none
    ∧ scan (ascii "\x7b\"a\":1,\x7d") = none
    ∧ scan (ascii "\x7b\"a\" 1\x7d") = none
    ∧ scan (ascii "01") = none
    ∧ scan (ascii "1.") = none
    ∧ scan (ascii "tru") = none
    ∧ scan (ascii "nullx") = none
    ∧ scan (ascii "\"a\\x\"") = none
    ∧ scan (ascii "\x7b\x7d \x7b\x7d") = none
    ∧ scan (ascii "[1") = none :=
  ⟨rfl, rfl, rfl, rfl, rfl, rfl, rfl, rfl, rfl, rfl, rfl⟩

theorem unmarshal_samples :
    unmarshalInfoDetails (ascii "null") = Except.ok ⟨0⟩
    ∧ unmarshalInfoDetails (ascii "\x7b\"p\\u0069D\":12\x7d") = Except.ok ⟨12⟩
    ∧ unmarshalInfoDetails (ascii "\x7b\"pid\":12,\"pid\":null\x7d") = Except.ok ⟨12⟩
    ∧ unmarshalInfoDetails (ascii "\x7b\"pid\":1.0\x7d")
        = Except.error (JsonError.unmarshalTypeError "pid")
    ∧ unmarshalInfoDetails (ascii "\x7b\"pid\":\"12\"\x7d")
        = Except.error (JsonError.unmarshalTypeError "pid")
    ∧ unmarshalInfoDetails (ascii "\x7b\"pid\":9223372036854775807\x7d")
        = Except.ok ⟨9223372036854775807⟩
    ∧ unmarshalInfoDetails (ascii "\x7b\"pid\":9223372036854775808\x7d")
        = Except.error (JsonError.unmarshalTypeError "pid")
    ∧ unmarshalInfoDetails (ascii "[]") = Except.error (JsonError.unmarshalTypeError "")
    ∧ unmarshalInfoDetails (ascii "\x7b") = Except.error JsonError.invalidDocument
    ∧ unmarshalInspectResponse (ascii "\x7b\"info\":\x7b\"pid\":5\x7d,\"info\":\x7b\x7d\x7d")
        = Except.ok ⟨⟨5⟩⟩
    ∧ unmarshalInspectResponse (ascii "\x7b\"info\":null,\"pid\":5\x7d") = Except.ok ⟨⟨0⟩⟩ :=
  ⟨rfl, rfl, rfl, rfl, rfl, rfl, rfl, rfl, rfl, rfl, rfl⟩

/-! ## Storing members: lemmas -/

theorem storeInfoDetailsMembers_of_no_match (ms : List (Bytes × JSON)) :
    ∀ cur, matchingValues ms "pid" = [] → storeInfoDetailsMembers ms cur = Except.ok cur := by
  induction ms with
  | nil => intro cur _; rfl
  | cons m rest ih =>
    intro cur h
    obtain ⟨k, v⟩ := m
    by_cases hk : keyMatches k "pid" = true
    · simp [matchingValues, List.filter, hk] at h
    · have hr : matchingValues rest "pid" = [] := by
        simpa [matchingValues, List.filter, hk] using h
      simp [storeInfoDetailsMembers, hk, ih cur hr]

theorem storeInfoDetailsMembers_of_unique (ms : List (Bytes × JSON)) (v : JSON) :
    ∀ cur, matchingValues ms "pid" = [v] →
      storeInfoDetailsMembers ms cur =
        (match storeInt "pid" v cur.PID with
          | Except.ok n => Except.ok ⟨n⟩
          | Except.error e => Except.error e) := by
  induction ms with
  | nil => intro cur h; simp [matchingValues] at h
  | cons m rest ih =>
    intro cur h
    obtain ⟨k, v1⟩ := m
    by_cases hk : keyMatches k "pid" = true
    · have h2 : v1 = v ∧ matchingValues rest "pid" = [] := by
        simpa [matchingValues, List.filter, hk] using h
      obtain ⟨hv, hr⟩ := h2
      subst hv
      simp only [storeInfoDetailsMembers, hk, if_true]
      cases hs : storeInt "pid" v1 cur.PID with
      | error e => rfl
      | ok n => simp [storeInfoDetailsMembers_of_no_match rest ⟨n⟩ hr]
    · have hr : matchingValues rest "pid" = [v] := by
        simpa [matchingValues, List.filter, hk] using h
      simp [storeInfoDetailsMembers, hk, ih cur hr]

theorem storeInspectResponseMembers_of_no_match (ms : List (Bytes × JSON)) :
    ∀ cur, matchingValues ms "info" = [] →
      storeInspectResponseMembers ms cur = Except.ok cur := by
  induction ms with
  | nil => intro cur _; rfl
  | cons m rest ih =>
    intro cur h
    obtain ⟨k, v⟩ := m
    by_cases hk : keyMatches k "info" = true
    · simp [matchingValues, List.filter, hk] at h
    · have hr : matchingValues rest "info" = [] := by
        simpa [matchingValues, List.filter, hk] using h
      simp [storeInspectResponseMembers, hk, ih cur hr]

theorem storeInspectResponseMembers_of_unique (ms : List (Bytes × JSON)) (v : JSON) :
    ∀ cur, matchingValues ms "info" = [v] →
      storeInspectResponseMembers ms cur =
        (match storeInfoDetails "info" v cur.Info with
          | Except.ok i => Except.ok ⟨i⟩
          | Except.error e => Except.error e) := by
  induction ms with
  | nil => intro cur h; simp [matchingValues] at h
  | cons m rest ih =>
    intro cur h
    obtain ⟨k, v1⟩ := m
    by_cases hk : keyMatches k "info" = true
    · have h2 : v1 = v ∧ matchingValues rest "info" = [] := by
        simpa [matchingValues, List.filter, hk] using h
      obtain ⟨hv, hr⟩ := h2
      subst hv
      simp only [storeInspectResponseMembers, hk, if_true]
      cases hs : storeInfoDetails "info" v1 cur.Info with
      | error e => rfl
      | ok n => simp [storeInspectResponseMembers_of_no_match rest ⟨n⟩ hr]
    · have hr : matchingValues rest "info" = [v] := by
        simpa [matchingValues, List.filter, hk] using h
      simp [storeInspectResponseMembers, hk, ih cur hr]

theorem storeInt_of_nullOrZero (field : String) (v : JSON) (h : nullOrZero v = true) :
    storeInt field v 0 = Except.ok 0 := by
  cases v with
  | null => rfl
  | num lit =>
    have h1 : parseInt64 lit = some 0 := by simpa [nullOrZero] using h
    simp [storeInt, h1]
  | bool b => simp [nullOrZero] at h
  | str s => simp [nullOrZero] at h
  | arr xs => simp [nullOrZero] at h
  | obj ms => simp [nullOrZero] at h

theorem storeInfoDetailsMembers_of_all_zero (ms : List (Bytes × JSON)) :
    (matchingValues ms "pid").all nullOrZero = true →
      storeInfoDetailsMembers ms ⟨0⟩ = Except.ok ⟨0⟩ := by
  induction ms with
  | nil => intro _; rfl
  | cons m rest ih =>
    intro h
    obtain ⟨k, v⟩ := m
    by_cases hk : keyMatches k "pid" = true
    · have h2 : nullOrZero v = true ∧ (matchingValues rest "pid").all nullOrZero = true := by
        simpa [matchingValues, List.filter, hk] using h
      simp [storeInfoDetailsMembers, hk, storeInt_of_nullOrZero "pid" v h2.1, ih h2.2]
    · have hr : (matchingValues rest "pid").all nullOrZero = true := by
        simpa [matchingValues, List.filter, hk] using h
      simp [storeInfoDetailsMembers, hk, ih hr]

theorem storeInfoDetails_of_givesNoPid (field : String) (v : JSON) (h : givesNoPid v = true) :
    storeInfoDetails field v ⟨0⟩ = Except.ok ⟨0⟩ := by
  cases v with
  | null => rfl
  | obj ms => exact storeInfoDetailsMembers_of_all_zero ms (by simpa [givesNoPid] using h)
  | bool b => simp [givesNoPid] at h
  | str s => simp [givesNoPid] at h
  | arr xs => simp [givesNoPid] at h
  | num lit => simp [givesNoPid] at h

theorem storeInspectResponseMembers_of_all_zero (ms : List (Bytes × JSON)) :
    (matchingValues ms "info").all givesNoPid = true →
      storeInspectResponseMembers ms ⟨⟨0⟩⟩ = Except.ok ⟨⟨0⟩⟩ := by
  induction ms with
  | nil => intro _; rfl
  | cons m rest ih =>
    intro h
    obtain ⟨k, v⟩ := m
    by_cases hk : keyMatches k "info" = true
    · have h2 : givesNoPid v = true ∧ (matchingValues rest "info").all givesNoPid = true := by
        simpa [matchingValues, List.filter, hk] using h
      simp [storeInspectResponseMembers, hk, storeInfoDetails_of_givesNoPid "info" v h2.1, ih h2.2]
    · have hr : (matchingValues rest "info").all givesNoPid = true := by
        simpa [matchingValues, List.filter, hk] using h
      simp [storeInspectResponseMembers, hk, ih hr]

theorem storeInspectResponse_of_givesNoInfoPid (v : JSON) (h : givesNoInfoPid v = true) :
    storeInspectResponse v ⟨⟨0⟩⟩ = Except.ok ⟨⟨0⟩⟩ := by
  cases v with
  | null => rfl
  | obj ms => exact storeInspectResponseMembers_of_all_zero ms (by simpa [givesNoInfoPid] using h)
  | bool b => simp [givesNoInfoPid] at h
  | str s => simp [givesNoInfoPid] at h
  | arr xs => simp [givesNoInfoPid] at h
  | num lit => simp [givesNoInfoPid] at h

theorem ascii_containerd_ne_crio : ascii "containerd" ≠ ascii "crio" := by decide

theorem parsePIDFromJSON_cases (j runtime : Bytes) :
    (∃ pid, pid ≠ 0 ∧ parsePIDFromJSON j runtime = (pid, none))
    ∨ (∃ err, parsePIDFromJSON j runtime = (0, some err)) := by
  by_cases h1 : runtime = ascii "containerd"
  · subst h1
    cases hu : unmarshalInspectResponse j with
    | error e => exact Or.inr ⟨Err.json e, by simp [parsePIDFromJSON, hu]⟩
    | ok resp =>
      by_cases h0 : resp.Info.PID = 0
      · exact Or.inr ⟨Err.noRunningTarget 0, by simp [parsePIDFromJSON, hu, h0]⟩
      · exact Or.inl ⟨resp.Info.PID, h0, by simp [parsePIDFromJSON, hu, h0]⟩
  · by_cases h2 : runtime = ascii "crio"
    · subst h2
      have hne := Ne.symm ascii_containerd_ne_crio
      cases hu : unmarshalInfoDetails j with
      | error e => exact Or.inr ⟨Err.couldNotFindPid j, by simp [parsePIDFromJSON, hne, hu]⟩
      | ok resp =>
        by_cases h0 : resp.PID = 0
        · exact Or.inr ⟨Err.noRunningTarget 0, by simp [parsePIDFromJSON, hne, hu, h0]⟩
        · exact Or.inl ⟨resp.PID, h0, by simp [parsePIDFromJSON, hne, hu, h0]⟩
    · exact Or.inr ⟨Err.noSupportedRuntime runtime, by simp [parsePIDFromJSON, h1, h2]⟩

/-- C1, as the code has it: `parsePIDFromJSON` never returns pid 0 as a valid
result. For every byte string and every runtime, a nil error comes with a
non-zero pid, and a non-nil error comes with the int 0. For runtime
`containerd` (resp. `crio`), whenever `json.Unmarshal` succeeds and leaves
`resp.Info.PID` (resp. `resp.PID`) at 0, the result is pid 0 with the "no
running target container" error; in particular this is the result for every
valid document in which every member whose key is `pid` up to the case of ASCII
letters (inside every member whose key is `info` up to the case of ASCII
letters, for `containerd`) is 0 or null, or in which there is no such member. -/
theorem parsePIDFromJSON_never_zero :
    (∀ j runtime, (parsePIDFromJSON j runtime).2 = none → (parsePIDFromJSON j runtime).1 ≠ 0)
    ∧ (∀ j runtime, (parsePIDFromJSON j runtime).2 ≠ none → (parsePIDFromJSON j runtime).1 = 0)
    ∧ (∀ j resp, unmarshalInspectResponse j = Except.ok resp → resp.Info.PID = 0 →
        parsePIDFromJSON j (ascii "containerd") = (0, some (Err.noRunningTarget 0)))
    ∧ (∀ j resp, unmarshalInfoDetails j = Except.ok resp → resp.PID = 0 →
        parsePIDFromJSON j (ascii "crio") = (0, some (Err.noRunningTarget 0)))
    ∧ (∀ j doc, scan j = some doc → givesNoInfoPid doc = true →
        parsePIDFromJSON j (ascii "containerd") = (0, some (Err.noRunningTarget 0)))
    ∧ (∀ j doc, scan j = some doc → givesNoPid doc = true →
        parsePIDFromJSON j (ascii "crio") = (0, some (Err.noRunningTarget 0))) := by
  have hc : ∀ j resp, unmarshalInspectResponse j = Except.ok resp → resp.Info.PID = 0 →
      parsePIDFromJSON j (ascii "containerd") = (0, some (Err.noRunningTarget 0)) := by
    intro j resp h h0
    simp [parsePIDFromJSON, h, h0]
  have hr : ∀ j resp, unmarshalInfoDetails j = Except.ok resp → resp.PID = 0 →
      parsePIDFromJSON j (ascii "crio") = (0, some (Err.noRunningTarget 0)) := by
    intro j resp h h0
    simp [parsePIDFromJSON, h, h0, Ne.symm ascii_containerd_ne_crio]
  refine ⟨?_, ?_, hc, hr, ?_, ?_⟩
  · intro j runtime h
    rcases parsePIDFromJSON_cases j runtime with ⟨pid, hpid, he⟩ | ⟨err, he⟩
    · rw [he]; exact hpid
    · rw [he] at h; simp at h
  · intro j runtime h
    rcases parsePIDFromJSON_cases j runtime with ⟨pid, hpid, he⟩ | ⟨err, he⟩
    · rw [he] at h; simp at h
    · rw [he]
  · intro j doc hs hz
    apply hc j ⟨⟨0⟩⟩ _ rfl
    simp [unmarshalInspectResponse, hs, storeInspectResponse_of_givesNoInfoPid doc hz]
  · intro j doc hs hz
    apply hr j ⟨0⟩ _ rfl
    simp [unmarshalInfoDetails, hs, storeInfoDetails_of_givesNoPid "" doc hz]

theorem parsePIDFromJSON_never_zero_witness :
    parsePIDFromJSON (ascii "\x7b\"info\":\x7b\"PID\":null,\"pid\":-0\x7d,\"pid\":9\x7d")
        (ascii "containerd") = (0, some (Err.noRunningTarget 0))
    ∧ parsePIDFromJSON (ascii "\x7b\"info\":\x7b\"pid\":9\x7d\x7d") (ascii "crio")
        = (0, some (Err.noRunningTarget 0)) :=
  ⟨parsePIDFromJSON_never_zero.2.2.2.2.1 _
      (JSON.obj [(ascii "info", JSON.obj [(ascii "PID", JSON.null), (ascii "pid", JSON.num (ascii "-0"))]),
        (ascii "pid", JSON.num (ascii "9"))]) rfl rfl,
   parsePIDFromJSON_never_zero.2.2.2.2.2 _
      (JSON.obj [(ascii "info", JSON.obj [(ascii "pid", JSON.num (ascii "9"))])]) rfl rfl⟩

/-- C1 fails as stated: the document `{"PID":7}` is valid, decodes, and has no
top-level field `pid`, yet for runtime `crio` the result is `(7, nil)`; the
document `{"Info":{"Pid":7}}` is valid, decodes, and has no field `info` (hence
no `info.pid`), yet for runtime `containerd` the result is `(7, nil)`. The
decoder takes the members `PID`, `Info` and `Pid` for the fields, so a
document in which the named pid field is absent does not always give an
error. -/
theorem parsePIDFromJSON_absent_pid_accepted :
    scan upperCasePidOutput = some (JSON.obj [(ascii "PID", JSON.num (ascii "7"))])
    ∧ unmarshalInfoDetails upperCasePidOutput = Except.ok ⟨7⟩
    ∧ parsePIDFromJSON upperCasePidOutput (ascii "crio") = (7, none)
    ∧ scan capitalisedInfoOutput
        = some (JSON.obj [(ascii "Info", JSON.obj [(ascii "Pid", JSON.num (ascii "7"))])])
    ∧ unmarshalInspectResponse capitalisedInfoOutput = Except.ok ⟨⟨7⟩⟩
    ∧ parsePIDFromJSON capitalisedInfoOutput (ascii "containerd") = (7, none) :=
  ⟨rfl, rfl, by decide, rfl, rfl, by decide⟩

/-- C4: for every runtime string other than exactly `containerd` and `crio`, and
for every byte string, `parsePIDFromJSON` returns pid 0 and the
unsupported-runtime error; the bytes play no part: any two byte strings give
the same result. -/
theorem parsePIDFromJSON_unsupported_runtime (j runtime : Bytes)
    (h1 : runtime ≠ ascii "containerd") (h2 : runtime ≠ ascii "crio") :
    parsePIDFromJSON j runtime = (0, some (Err.noSupportedRuntime runtime))
    ∧ ∀ j1, parsePIDFromJSON j1 runtime = parsePIDFromJSON j runtime := by
  have h : ∀ j0, parsePIDFromJSON j0 runtime = (0, some (Err.noSupportedRuntime runtime)) := by
    intro j0
    simp [parsePIDFromJSON, h1, h2]
  exact ⟨h j, fun j1 => by rw [h j1, h j]⟩

theorem parsePIDFromJSON_unsupported_runtime_witness :
    parsePIDFromJSON (ascii "\x7b\"pid\":12,\"info\":\x7b\"pid\":12\x7d\x7d") (ascii "CRIO")
        = (0, some (Err.noSupportedRuntime (ascii "CRIO")))
    ∧ parsePIDFromJSON (ascii "not json") [] = (0, some (Err.noSupportedRuntime [])) :=
  ⟨(parsePIDFromJSON_unsupported_runtime _ _ (by decide) (by decide)).1,
   (parsePIDFromJSON_unsupported_runtime _ _ (by decide) (by decide)).1⟩

/-- C2, as the code has it: a valid object in which exactly one member has a
key equal to `info` up to the case of ASCII letters, that member being an object
in which exactly one member has a key equal to `pid` up to the case of ASCII
letters, whose value is an integer literal `p`, non-zero and in the range of
`int`: for runtime `containerd` the result is exactly `(p, nil)`, whatever the
members with other keys are (a top-level `pid` included). -/
theorem parsePIDFromJSON_containerd (j : Bytes) (ms ms1 : List (Bytes × JSON)) (lit : Bytes)
    (p : Int) (hscan : scan j = some (JSON.obj ms))
    (hinfo : matchingValues ms "info" = [JSON.obj ms1])
    (hpid : matchingValues ms1 "pid" = [JSON.num lit])
    (hlit : signedDecimal lit = some p) (hrange : minInt ≤ p ∧ p ≤ maxInt) (hp : p ≠ 0) :
    parsePIDFromJSON j (ascii "containerd") = (p, none) := by
  have h1 : parseInt64 lit = some p := by simp [parseInt64, hlit, hrange]
  have h2 : storeInfoDetailsMembers ms1 ⟨0⟩ = Except.ok ⟨p⟩ := by
    rw [storeInfoDetailsMembers_of_unique ms1 _ _ hpid]
    simp [storeInt, h1]
  have h3 : storeInspectResponseMembers ms ⟨⟨0⟩⟩ = Except.ok ⟨⟨p⟩⟩ := by
    rw [storeInspectResponseMembers_of_unique ms _ _ hinfo]
    simp [storeInfoDetails, h2]
  simp [parsePIDFromJSON, unmarshalInspectResponse, hscan, storeInspectResponse, h3, hp]

theorem parsePIDFromJSON_containerd_witness :
    parsePIDFromJSON containerdOutput (ascii "containerd") = (4321, none) :=
  parsePIDFromJSON_containerd containerdOutput
    [(ascii "pid", JSON.num (ascii "1")),
     (ascii "info", JSON.obj [(ascii "pid", JSON.num (ascii "4321")),
        (ascii "state", JSON.arr [JSON.str (ascii "running"), JSON.num (ascii "1.5")])]),
     (ascii "x", JSON.null)]
    [(ascii "pid", JSON.num (ascii "4321")),
     (ascii "state", JSON.arr [JSON.str (ascii "running"), JSON.num (ascii "1.5")])]
    (ascii "4321") 4321 rfl rfl rfl (by decide) (by decide) (by decide)

/-- C2 fails as stated: the documents `{"info":{"pid":7},"Info":{"pid":0}}` and
`{"info":{"pid":7},"INFO":"x"}` are valid objects whose field `info` is an
object whose field `pid` is the non-zero integer 7, yet for runtime
`containerd` the result is pid 0 with an error: the decoder also takes the
members `Info` and `INFO` for the field, storing 0 over the 7 in the first
document and refusing the string in the second. -/
theorem parsePIDFromJSON_containerd_case_variant :
    scan caseVariantInfoOutput
        = some (JSON.obj [(ascii "info", JSON.obj [(ascii "pid", JSON.num (ascii "7"))]),
            (ascii "Info", JSON.obj [(ascii "pid", JSON.num (ascii "0"))])])
    ∧ parsePIDFromJSON caseVariantInfoOutput (ascii "containerd")
        = (0, some (Err.noRunningTarget 0))
    ∧ scan mistypedInfoOutput
        = some (JSON.obj [(ascii "info", JSON.obj [(ascii "pid", JSON.num (ascii "7"))]),
            (ascii "INFO", JSON.str (ascii "x"))])
    ∧ parsePIDFromJSON mistypedInfoOutput (ascii "containerd")
        = (0, some (Err.json (JsonError.unmarshalTypeError "info"))) :=
  ⟨rfl, by decide, rfl, by decide⟩

/-- C3, as the code has it: a valid object in which exactly one member has a
key equal to `pid` up to the case of ASCII letters, whose value is an integer
literal `p`, non-zero and in the range of `int`: for runtime `crio` the result
is exactly `(p, nil)`, whatever the members with other keys are (a nested
`info.pid` included). -/
theorem parsePIDFromJSON_crio (j : Bytes) (ms : List (Bytes × JSON)) (lit : Bytes) (p : Int)
    (hscan : scan j = some (JSON.obj ms))
    (hpid : matchingValues ms "pid" = [JSON.num lit])
    (hlit : signedDecimal lit = some p) (hrange : minInt ≤ p ∧ p ≤ maxInt) (hp : p ≠ 0) :
    parsePIDFromJSON j (ascii "crio") = (p, none) := by
  have h1 : parseInt64 lit = some p := by simp [parseInt64, hlit, hrange]
  have h2 : storeInfoDetailsMembers ms ⟨0⟩ = Except.ok ⟨p⟩ := by
    rw [storeInfoDetailsMembers_of_unique ms _ _ hpid]
    simp [storeInt, h1]
  simp [parsePIDFromJSON, unmarshalInfoDetails, hscan, storeInfoDetails, h2, hp,
    Ne.symm ascii_containerd_ne_crio]

theorem parsePIDFromJSON_crio_witness :
    parsePIDFromJSON crioOutput (ascii "crio") = (-77, none) :=
  parsePIDFromJSON_crio crioOutput
    [(ascii "info", JSON.obj [(ascii "pid", JSON.num (ascii "1"))]),
     (ascii "pid", JSON.num (ascii "-77")),
     (ascii "status", JSON.obj [(ascii "pid", JSON.num (ascii "5"))])]
    (ascii "-77") (-77) rfl rfl (by decide) (by decide) (by decide)

/-- C3 fails as stated: the documents `{"pid":7,"PID":0}` and
`{"pid":7,"Pid":"x"}` are valid objects whose top-level field `pid` is the
non-zero integer 7, yet for runtime `crio` the result is pid 0 with an error:
the decoder also takes the members `PID` and `Pid` for the field, storing 0
over the 7 in the first document and refusing the string in the second. -/
theorem parsePIDFromJSON_crio_case_variant :
    scan caseVariantPidOutput
        = some (JSON.obj [(ascii "pid", JSON.num (ascii "7")), (ascii "PID", JSON.num (ascii "0"))])
    ∧ parsePIDFromJSON caseVariantPidOutput (ascii "crio") = (0, some (Err.noRunningTarget 0))
    ∧ scan mistypedPidOutput
        = some (JSON.obj [(ascii "pid", JSON.num (ascii "7")), (ascii "Pid", JSON.str (ascii "x"))])
    ∧ parsePIDFromJSON mistypedPidOutput (ascii "crio")
        = (0, some (Err.couldNotFindPid mistypedPidOutput)) :=
  ⟨rfl, by decide, rfl, by decide⟩

/-! ## The run: lemmas -/

theorem GetPID_events (w : World) (d : ExperimentDetails) :
    ∀ e ∈ (GetPID w d).1, isRemoval e = false ∧ isNotification e = false ∧ isBash e = false := by
  intro e he
  unfold GetPID at he
  split at he
  · simp at he; subst he; simp [isRemoval, isNotification, isBash]
  · split at he
    · simp at he; subst he; simp [isRemoval, isNotification, isBash]
    · simp at he; subst he; simp [isRemoval, isNotification, isBash]
    · split at he
      · simp at he
        rcases he with he | he <;> subst he <;> simp [isRemoval, isNotification, isBash]
      · split at he <;>
        · simp at he
          rcases he with he | he <;> subst he <;> simp [isRemoval, isNotification, isBash]

theorem notification_events (d : ExperimentDetails) :
    ∀ e ∈ notification d, isRemoval e = false ∧ isBash e = false := by
  intro e he
  unfold notification at he
  split_ifs at he
  · simp at he; subst he; simp [isRemoval, isBash]
  · simp at he

theorem PreparePodNetworkChaos_of_pid (w : World) (d : ExperimentDetails) (t1 : List Event)
    (pid : Int) (hpid : GetPID w d = (t1, Outcome.returned (pid, none))) :
    PreparePodNetworkChaos w d =
      (match (w.bash (injectChaosCommand w d pid)).2 with
        | some err =>
          (t1 ++ notification d ++ [Event.bash (injectChaosCommand w d pid)],
            Outcome.returned (some err))
        | none =>
          (match w.wait with
            | WaitResolution.signal =>
              (t1 ++ notification d ++ [Event.bash (injectChaosCommand w d pid)]
                ++ [Event.timeAfter (timeDelay d), Event.selected w.wait]
                ++ [Event.tcKillnetem pid, Event.osExit 1], Outcome.exited 1)
            | WaitResolution.timer =>
              (t1 ++ notification d ++ [Event.bash (injectChaosCommand w d pid)]
                ++ [Event.timeAfter (timeDelay d), Event.selected w.wait]
                ++ [Event.tcKillnetem pid], Outcome.returned (w.tcKillnetem pid)))) := by
  unfold PreparePodNetworkChaos
  rw [hpid]
  simp only [InjectChaos, notification, timeDelay]
  cases hb : (w.bash (injectChaosCommand w d pid)).2 with
  | some err => simp
  | none =>
    cases hw : w.wait with
    | signal => simp
    | timer =>
      cases hk : w.tcKillnetem pid with
      | some err => simp
      | none => simp

theorem countP_isRemoval_of_pid (w : World) (d : ExperimentDetails) (t1 : List Event)
    (pid : Int) (hpid : GetPID w d = (t1, Outcome.returned (pid, none))) :
    (t1 ++ notification d).countP isRemoval = 0 := by
  rw [List.countP_eq_zero]
  intro e he
  rcases List.mem_append.1 he with h | h
  · have := (GetPID_events w d e (by rw [hpid]; exact h)).1
    simp [this]
  · simp [(notification_events d e h).1]

/-- C5, as the code has it: when pid resolution succeeds and `InjectChaos`
returns an error, `PreparePodNetworkChaos` returns that same error at once:
the injection command is the last event of the run, and the removal operation
(`tc.Killnetem`) is not invoked. -/
theorem injection_failure_returns_without_removal (w : World) (d : ExperimentDetails)
    (t1 : List Event) (pid : Int) (err : Err)
    (hpid : GetPID w d = (t1, Outcome.returned (pid, none)))
    (hinj : (InjectChaos w d pid).2 = some err) :
    PreparePodNetworkChaos w d
        = (t1 ++ notification d ++ [Event.bash (injectChaosCommand w d pid)],
            Outcome.returned (some err))
    ∧ (PreparePodNetworkChaos w d).1.countP isRemoval = 0 := by
  have hb : (w.bash (injectChaosCommand w d pid)).2 = some err := by
    simpa [InjectChaos] using hinj
  have h := PreparePodNetworkChaos_of_pid w d t1 pid hpid
  rw [hb] at h
  refine ⟨h, ?_⟩
  rw [h]
  simp only [List.countP_append, countP_isRemoval_of_pid w d t1 pid hpid]
  simp only [List.countP_append] at *
  simp [List.countP_cons, isRemoval]

theorem injection_failure_returns_without_removal_witness :
    (PreparePodNetworkChaos (sampleWorld (some (Err.external 1)) WaitResolution.signal none)
        (GetENV (sampleWorld (some (Err.external 1)) WaitResolution.signal none))).2
      = Outcome.returned (some (Err.external 1)) :=
  congrArg Prod.snd
    (injection_failure_returns_without_removal
      (sampleWorld (some (Err.external 1)) WaitResolution.signal none)
      (GetENV (sampleWorld (some (Err.external 1)) WaitResolution.signal none))
      [Event.getPod (ascii "default") (ascii "nginx-0"), Event.crictlInspect (ascii "a1b2")]
      4321 (Err.external 1) (by decide) (by decide)).1

/-- C5 fails as stated: in the sample run pid resolution succeeds (pid 4321)
and the injection call returns an error; the function returns that error, but
the removal operation is invoked zero times, not once. -/
theorem injection_failure_no_removal_sample :
    (GetPID (sampleWorld (some (Err.external 1)) WaitResolution.timer none)
        (GetENV (sampleWorld (some (Err.external 1)) WaitResolution.timer none))).2
      = Outcome.returned (4321, none)
    ∧ (InjectChaos (sampleWorld (some (Err.external 1)) WaitResolution.timer none)
        (GetENV (sampleWorld (some (Err.external 1)) WaitResolution.timer none)) 4321).2
      = some (Err.external 1)
    ∧ (PreparePodNetworkChaos (sampleWorld (some (Err.external 1)) WaitResolution.timer none)
        (GetENV (sampleWorld (some (Err.external 1)) WaitResolution.timer none))).2
      = Outcome.returned (some (Err.external 1))
    ∧ (PreparePodNetworkChaos (sampleWorld (some (Err.external 1)) WaitResolution.timer none)
        (GetENV (sampleWorld (some (Err.external 1)) WaitResolution.timer none))).1.countP
        isRemoval = 0 := by
  decide

/-- C6: when pid resolution and injection both succeed, then however the wait
resolves, the run is: events without any removal, then the injection command
for the resolved pid, the start of the wait, its resolution, and one call of
the removal operation with that same pid; nothing follows on the timer path,
and only `os.Exit(1)` follows on the signal path. The removal is thus invoked
exactly once, after the injection and after the wait has resolved, and before
the process exits. -/
theorem removal_once_after_wait (w : World) (d : ExperimentDetails) (t1 : List Event)
    (pid : Int) (hpid : GetPID w d = (t1, Outcome.returned (pid, none)))
    (hinj : (InjectChaos w d pid).2 = none) :
    ∃ pre post,
      (PreparePodNetworkChaos w d).1
        = pre ++ [Event.bash (injectChaosCommand w d pid), Event.timeAfter (timeDelay d),
            Event.selected w.wait, Event.tcKillnetem pid] ++ post
      ∧ pre.countP isRemoval = 0
      ∧ (PreparePodNetworkChaos w d).1.countP isRemoval = 1
      ∧ (w.wait = WaitResolution.signal →
          post = [Event.osExit 1] ∧ (PreparePodNetworkChaos w d).2 = Outcome.exited 1)
      ∧ (w.wait = WaitResolution.timer →
          post = [] ∧ (PreparePodNetworkChaos w d).2 = Outcome.returned (w.tcKillnetem pid)) := by
  have hb : (w.bash (injectChaosCommand w d pid)).2 = none := by
    simpa [InjectChaos] using hinj
  have h := PreparePodNetworkChaos_of_pid w d t1 pid hpid
  rw [hb] at h
  have hpre := countP_isRemoval_of_pid w d t1 pid hpid
  cases hw : w.wait with
  | signal =>
    rw [hw] at h
    refine ⟨t1 ++ notification d, [Event.osExit 1], ?_, hpre, ?_, ?_, ?_⟩
    · rw [h]; simp
    · rw [h]
      simp only [List.countP_append, hpre]
      simp [List.countP_cons, isRemoval]
    · intro _; exact ⟨rfl, by rw [h]⟩
    · intro hc; cases hc
  | timer =>
    rw [hw] at h
    refine ⟨t1 ++ notification d, [], ?_, hpre, ?_, ?_, ?_⟩
    · rw [h]; simp
    · rw [h]
      simp only [List.countP_append, hpre]
      simp [List.countP_cons, isRemoval]
    · intro hc; cases hc
    · intro _; exact ⟨rfl, by rw [h]⟩

theorem removal_once_after_wait_witness :
    (PreparePodNetworkChaos (sampleWorld none WaitResolution.signal (some (Err.external 2)))
        (GetENV (sampleWorld none WaitResolution.signal (some (Err.external 2))))).1.countP
        isRemoval = 1
    ∧ (PreparePodNetworkChaos (sampleWorld none WaitResolution.signal (some (Err.external 2)))
        (GetENV (sampleWorld none WaitResolution.signal (some (Err.external 2))))).2
        = Outcome.exited 1 := by
  obtain ⟨_, _, _, _, h3, h4, _⟩ :=
    removal_once_after_wait (sampleWorld none WaitResolution.signal (some (Err.external 2)))
      (GetENV (sampleWorld none WaitResolution.signal (some (Err.external 2))))
      [Event.getPod (ascii "default") (ascii "nginx-0"), Event.crictlInspect (ascii "a1b2")]
      4321 (by decide) (by decide)
  exact ⟨h3, (h4 rfl).2⟩

theorem PreparePodNetworkChaos_of_no_pid (w : World) (d : ExperimentDetails)
    (h : ∀ pid, (GetPID w d).2 ≠ Outcome.returned (pid, none)) :
    (PreparePodNetworkChaos w d).1 = (GetPID w d).1
    ∧ (PreparePodNetworkChaos w d).2 ≠ Outcome.returned none := by
  unfold PreparePodNetworkChaos
  rcases hg : GetPID w d with ⟨t1, o⟩
  rw [hg] at h
  cases o with
  | panicked => simp
  | exited code => simp
  | returned r =>
    obtain ⟨pid, e⟩ := r
    cases e with
    | none => exact absurd rfl (h pid)
    | some err => simp

theorem findContainerID_ne_exited (target : Bytes) (code : Nat) :
    ∀ statuses, findContainerID target statuses ≠ Outcome.exited code := by
  intro statuses
  induction statuses with
  | nil => simp [findContainerID]
  | cons c rest ih =>
    unfold findContainerID
    split_ifs
    · split <;> simp
    · exact ih

theorem GetPID_ne_exited (w : World) (d : ExperimentDetails) (code : Nat) :
    (GetPID w d).2 ≠ Outcome.exited code := by
  unfold GetPID
  split
  · simp
  · split
    · simp
    · rename_i h
      exact absurd h (findContainerID_ne_exited _ _ _)
    · split
      · simp
      · split <;> simp

theorem PreparePodNetworkChaos_exited (w : World) (d : ExperimentDetails) (code : Nat)
    (h : (PreparePodNetworkChaos w d).2 = Outcome.exited code) : code = 1 := by
  by_cases hex : ∃ pid, (GetPID w d).2 = Outcome.returned (pid, none)
  · obtain ⟨pid, hpid⟩ := hex
    have h2 := PreparePodNetworkChaos_of_pid w d (GetPID w d).1 pid (Prod.ext rfl hpid)
    rw [h2] at h
    cases hb : (w.bash (injectChaosCommand w d pid)).2 with
    | some err => rw [hb] at h; simp at h
    | none =>
      rw [hb] at h
      cases hw : w.wait with
      | signal => rw [hw] at h; simp at h; exact h.symm
      | timer => rw [hw] at h; simp at h
  · have hg := GetPID_ne_exited w d code
    unfold PreparePodNetworkChaos at h
    rcases hgp : GetPID w d with ⟨t1, o⟩
    rw [hgp] at h hg hex
    cases o with
    | panicked => simp at h
    | exited c => simp at h; subst h; exact absurd rfl hg
    | returned r =>
      obtain ⟨pid, e⟩ := r
      cases e with
      | none => exact absurd ⟨pid, rfl⟩ hex
      | some err => simp at h

/-- C7: given that client setup succeeded, the process ends with exit status 0
exactly when `PreparePodNetworkChaos` returns nil, and that happens exactly
when pid resolution succeeds, injection succeeds, the wait is resolved by the
timer and the removal call succeeds. In every other case the status is
non-zero: a non-nil error returned to `main` gives the status of `log.Fatalf`,
and on the signal path the process exits with status 1 whether or not the
removal call succeeded. -/
theorem exit_status_zero_iff (w : World) (hsetup : w.generateClientSet = none) :
    ((main w).2 = 0 ↔ (PreparePodNetworkChaos w (GetENV w)).2 = Outcome.returned none)
    ∧ ((PreparePodNetworkChaos w (GetENV w)).2 = Outcome.returned none ↔
        ∃ pid, (GetPID w (GetENV w)).2 = Outcome.returned (pid, none)
          ∧ (InjectChaos w (GetENV w) pid).2 = none
          ∧ w.wait = WaitResolution.timer
          ∧ w.tcKillnetem pid = none)
    ∧ (∀ err, (PreparePodNetworkChaos w (GetENV w)).2 = Outcome.returned (some err) →
        (main w).2 = logFatalfStatus ∧ (main w).2 ≠ 0)
    ∧ (∀ pid, (GetPID w (GetENV w)).2 = Outcome.returned (pid, none) →
        (InjectChaos w (GetENV w) pid).2 = none → w.wait = WaitResolution.signal →
        (PreparePodNetworkChaos w (GetENV w)).2 = Outcome.exited 1 ∧ (main w).2 = 1) := by
  have hmain : (main w).2 =
      (match (PreparePodNetworkChaos w (GetENV w)).2 with
        | Outcome.returned none => 0
        | Outcome.returned (some _) => logFatalfStatus
        | Outcome.exited code => code
        | Outcome.panicked => panicStatus) := by
    unfold main
    rw [hsetup]
    dsimp only
    generalize PreparePodNetworkChaos w (GetENV w) = r
    obtain ⟨t, o⟩ := r
    cases o with
    | panicked => rfl
    | exited code => rfl
    | returned r => cases r <;> rfl
  have hsig : ∀ pid, (GetPID w (GetENV w)).2 = Outcome.returned (pid, none) →
      (InjectChaos w (GetENV w) pid).2 = none → w.wait = WaitResolution.signal →
      (PreparePodNetworkChaos w (GetENV w)).2 = Outcome.exited 1 := by
    intro pid hpid hinj hw
    have hb : (w.bash (injectChaosCommand w (GetENV w) pid)).2 = none := by
      simpa [InjectChaos] using hinj
    have h := PreparePodNetworkChaos_of_pid w (GetENV w) (GetPID w (GetENV w)).1 pid
      (Prod.ext rfl hpid)
    rw [hb, hw] at h
    rw [h]
  refine ⟨?_, ?_, ?_, ?_⟩
  · rw [hmain]
    constructor
    · intro h
      rcases ho : (PreparePodNetworkChaos w (GetENV w)).2 with r | _ | code
      · cases r with
        | none => rfl
        | some err => rw [ho] at h; simp [logFatalfStatus] at h
      · rw [ho] at h; simp [panicStatus] at h
      · rw [ho] at h
        simp only at h
        have := PreparePodNetworkChaos_exited w (GetENV w) code ho
        omega
    · intro h; rw [h]
  · constructor
    · intro h
      by_cases hex : ∃ pid, (GetPID w (GetENV w)).2 = Outcome.returned (pid, none)
      · obtain ⟨pid, hpid⟩ := hex
        refine ⟨pid, hpid, ?_⟩
        have h2 := PreparePodNetworkChaos_of_pid w (GetENV w) (GetPID w (GetENV w)).1 pid
          (Prod.ext rfl hpid)
        rw [h2] at h
        cases hb : (w.bash (injectChaosCommand w (GetENV w) pid)).2 with
        | some err => rw [hb] at h; simp at h
        | none =>
          rw [hb] at h
          cases hw : w.wait with
          | signal => rw [hw] at h; simp at h
          | timer =>
            rw [hw] at h
            simp at h
            exact ⟨by simpa [InjectChaos] using hb, rfl, h⟩
      · have hno : ∀ pid, (GetPID w (GetENV w)).2 ≠ Outcome.returned (pid, none) :=
          fun pid hp => hex ⟨pid, hp⟩
        exact absurd h (PreparePodNetworkChaos_of_no_pid w (GetENV w) hno).2
    · rintro ⟨pid, hpid, hinj, hw, hk⟩
      have hb : (w.bash (injectChaosCommand w (GetENV w) pid)).2 = none := by
        simpa [InjectChaos] using hinj
      have h := PreparePodNetworkChaos_of_pid w (GetENV w) (GetPID w (GetENV w)).1 pid
        (Prod.ext rfl hpid)
      rw [hb, hw] at h
      rw [h]
      simp [hk]
  · intro err h
    rw [hmain, h]
    simp [logFatalfStatus]
  · intro pid hpid hinj hw
    have h := hsig pid hpid hinj hw
    exact ⟨h, by rw [hmain, h]⟩

theorem exit_status_zero_iff_witness :
    (main (sampleWorld none WaitResolution.signal none)).2 = 1
    ∧ ((main (sampleWorld none WaitResolution.timer none)).2 = 0 ↔
        (PreparePodNetworkChaos (sampleWorld none WaitResolution.timer none)
          (GetENV (sampleWorld none WaitResolution.timer none))).2 = Outcome.returned none) :=
  ⟨((exit_status_zero_iff (sampleWorld none WaitResolution.signal none) rfl).2.2.2 4321
      (by decide) (by decide) rfl).2,
   (exit_status_zero_iff (sampleWorld none WaitResolution.timer none) rfl).1⟩

/-- C8, as the code has it: the lifecycle-start (`ChaosInject`) notification is
emitted only when pid resolution has succeeded and the engine name is not
empty, once, and immediately before the injection command is run, hence before
the wait begins, and whether the injection then succeeds or fails; no other
notification and no other shell command occur in the run. When pid resolution
does not succeed, no notification is emitted. -/
theorem notification_precedes_injection (w : World) (d : ExperimentDetails) :
    (∀ t1 pid, GetPID w d = (t1, Outcome.returned (pid, none)) →
      ∃ post,
        (PreparePodNetworkChaos w d).1
          = t1 ++ notification d ++ [Event.bash (injectChaosCommand w d pid)] ++ post
        ∧ t1.countP isNotification = 0 ∧ t1.countP isBash = 0
        ∧ post.countP isNotification = 0 ∧ post.countP isBash = 0
        ∧ (d.EngineName ≠ [] → (notification d).length = 1 ∧
            (notification d).countP isNotification = 1)
        ∧ (d.EngineName = [] → notification d = []))
    ∧ ((∀ pid, (GetPID w d).2 ≠ Outcome.returned (pid, none)) →
        (PreparePodNetworkChaos w d).1.countP isNotification = 0) := by
  constructor
  · intro t1 pid hpid
    have h := PreparePodNetworkChaos_of_pid w d t1 pid hpid
    have ht1 : t1.countP isNotification = 0 ∧ t1.countP isBash = 0 := by
      constructor
      · rw [List.countP_eq_zero]
        intro e he
        simp [(GetPID_events w d e (by rw [hpid]; exact he)).2.1]
      · rw [List.countP_eq_zero]
        intro e he
        simp [(GetPID_events w d e (by rw [hpid]; exact he)).2.2]
    have hn1 : d.EngineName ≠ [] → (notification d).length = 1 ∧
        (notification d).countP isNotification = 1 := by
      intro hne
      simp [notification, hne, isNotification]
    have hn2 : d.EngineName = [] → notification d = [] := by
      intro he
      simp [notification, he]
    cases hb : (w.bash (injectChaosCommand w d pid)).2 with
    | some err =>
      rw [hb] at h
      exact ⟨[], by rw [h]; simp, ht1.1, ht1.2, rfl, rfl, hn1, hn2⟩
    | none =>
      rw [hb] at h
      cases hw : w.wait with
      | signal =>
        rw [hw] at h
        refine ⟨[Event.timeAfter (timeDelay d), Event.selected WaitResolution.signal,
          Event.tcKillnetem pid, Event.osExit 1], by rw [h]; simp, ht1.1, ht1.2, ?_, ?_, hn1, hn2⟩
        · simp [List.countP_cons, isNotification]
        · simp [List.countP_cons, isBash]
      | timer =>
        rw [hw] at h
        refine ⟨[Event.timeAfter (timeDelay d), Event.selected WaitResolution.timer,
          Event.tcKillnetem pid], by rw [h]; simp, ht1.1, ht1.2, ?_, ?_, hn1, hn2⟩
        · simp [List.countP_cons, isNotification]
        · simp [List.countP_cons, isBash]
  · intro hno
    rw [(PreparePodNetworkChaos_of_no_pid w d hno).1, List.countP_eq_zero]
    intro e he
    simp [(GetPID_events w d e he).2.1]

theorem notification_precedes_injection_witness :
    (PreparePodNetworkChaos (sampleWorld none WaitResolution.timer none)
        (GetENV (sampleWorld none WaitResolution.timer none))).1.countP isNotification = 1 := by
  obtain ⟨post, h1, h2, _, h4, _, h6, _⟩ :=
    (notification_precedes_injection (sampleWorld none WaitResolution.timer none)
      (GetENV (sampleWorld none WaitResolution.timer none))).1
      [Event.getPod (ascii "default") (ascii "nginx-0"), Event.crictlInspect (ascii "a1b2")]
      4321 (by decide)
  rw [h1]
  simp only [List.countP_append, h2, h4, (h6 (by decide)).2]
  simp [List.countP_cons, isNotification]

/-- C8 fails as stated: in the sample run the injection call returns an error,
yet the lifecycle-start notification has been emitted: it is the event just
before the injection command, which is the last event of the run. -/
theorem notification_emitted_before_failed_injection :
    (PreparePodNetworkChaos (sampleWorld (some (Err.external 3)) WaitResolution.timer none)
        (GetENV (sampleWorld (some (Err.external 3)) WaitResolution.timer none)))
      = ([Event.getPod (ascii "default") (ascii "nginx-0"),
          Event.crictlInspect (ascii "a1b2"),
          Event.generateEventsChaosInject
            (ascii "Injecting pod-network-latency chaos on application pod"),
          Event.bash (ascii "nsenter -t 4321 -n tc qdisc add dev eth1 root netem delay 100ms")],
         Outcome.returned (some (Err.external 3))) := by
  decide

theorem killnetemCommand_eq (p : Int) :
    killnetemCommand p = tcQdiscCommand p (ascii "delete") (ascii "eth0") [] := by
  simp [killnetemCommand, tcQdiscCommand, ascii]

/-- C9: for every pid `p` the removal command built by `Killnetem` is exactly
`nsenter -t <p> -n tc qdisc delete dev eth0 root`: its device is `eth0` and the
configured interface plays no part in it; the injection command built by
`InjectChaos` is `nsenter -t <p> -n tc qdisc add dev <NetworkInterface> root netem `
followed by the value of `NETEM_COMMAND` as it is. Hence for every configured
interface other than `eth0` the removal command is not the `delete` command for
the device that the injection names. -/
theorem removal_names_eth0 (w : World) (d : ExperimentDetails) (p : Int) :
    Killnetem w p
        = ([Event.bash (ascii "nsenter -t " ++ sprintD p
              ++ ascii " -n tc qdisc delete dev eth0 root")],
            (w.bash (ascii "nsenter -t " ++ sprintD p
              ++ ascii " -n tc qdisc delete dev eth0 root")).2)
    ∧ InjectChaos w d p
        = ([Event.bash (ascii "nsenter -t " ++ sprintD p ++ ascii " -n tc qdisc add dev "
              ++ d.NetworkInterface ++ ascii " root netem " ++ w.getenv (ascii "NETEM_COMMAND"))],
            (w.bash (ascii "nsenter -t " ++ sprintD p ++ ascii " -n tc qdisc add dev "
              ++ d.NetworkInterface ++ ascii " root netem "
              ++ w.getenv (ascii "NETEM_COMMAND"))).2)
    ∧ killnetemCommand p = tcQdiscCommand p (ascii "delete") (ascii "eth0") []
    ∧ injectChaosCommand w d p
        = tcQdiscCommand p (ascii "add") d.NetworkInterface
            (ascii " netem " ++ w.getenv (ascii "NETEM_COMMAND"))
    ∧ (d.NetworkInterface ≠ ascii "eth0" →
        killnetemCommand p ≠ tcQdiscCommand p (ascii "delete") d.NetworkInterface []) := by
  refine ⟨rfl, ?_, killnetemCommand_eq p, ?_, ?_⟩
  · simp [InjectChaos, injectChaosCommand]
  · simp [injectChaosCommand, tcQdiscCommand, ascii]
  · intro hne heq
    rw [killnetemCommand_eq] at heq
    simp only [tcQdiscCommand, List.append_assoc, List.append_cancel_left_eq] at heq
    simp only [List.append_nil] at heq
    exact hne (List.append_cancel_right heq).symm

theorem removal_names_eth0_witness :
    killnetemCommand 4321 = ascii "nsenter -t 4321 -n tc qdisc delete dev eth0 root"
    ∧ killnetemCommand 4321 ≠ ascii "nsenter -t 4321 -n tc qdisc delete dev eth1 root" :=
  ⟨by decide,
   (removal_names_eth0 (sampleWorld none WaitResolution.timer none)
      (GetENV (sampleWorld none WaitResolution.timer none)) 4321).2.2.2.2 (by decide)⟩

theorem ascii_slashes : ascii "//" = [0x2F, 0x2F] := by decide

theorem ascii_scheme_sep : ascii "://" = [0x3A, 0x2F, 0x2F] := by decide

theorem splitFrom_no_sep (sep : Bytes) (s : Bytes) :
    ∀ cur, ¬ sep <:+: s → splitFrom sep 0 cur s = [cur ++ s] := by
  induction s with
  | nil => intro cur _; simp [splitFrom]
  | cons c rest ih =>
    intro cur h
    have hp : ¬ sep <+: c :: rest := fun hp => h hp.isInfix
    have hr : ¬ sep <:+: rest := fun hr => h (List.infix_cons hr)
    simp [splitFrom, hp, ih (cur ++ [c]) hr]

theorem splitFrom_scheme (scheme id : Bytes) (hid : ¬ ascii "//" <:+: id) :
    ∀ cur, ¬ ascii "//" <:+: scheme →
      splitFrom (ascii "//") 0 cur (scheme ++ ascii "://" ++ id)
        = [cur ++ scheme ++ ascii ":", id] := by
  induction scheme with
  | nil =>
    intro cur _
    have h := splitFrom_no_sep (ascii "//") id [] hid
    rw [ascii_slashes] at h ⊢
    rw [ascii_scheme_sep]
    simp [splitFrom, h, ascii]
  | cons c rest ih =>
    intro cur h
    have hr : ¬ ascii "//" <:+: rest := fun hr => h (List.infix_cons hr)
    have hp : ¬ ascii "//" <+: c :: (rest ++ ascii "://" ++ id) := by
      rw [ascii_slashes, ascii_scheme_sep]
      intro hp
      cases rest with
      | nil => simp at hp
      | cons c2 rest2 =>
        apply h
        rw [ascii_slashes]
        simp at hp
        obtain ⟨h1, h2⟩ := hp
        subst h1; subst h2
        exact (List.prefix_append [0x2F, 0x2F] rest2).isInfix
    have hp2 : ¬ ascii "//" <+: c :: (rest ++ (ascii "://" ++ id)) := by
      simpa [List.append_assoc] using hp
    have h2 := ih (cur ++ [c]) hr
    simp only [List.cons_append, List.append_assoc] at h2 ⊢
    rw [splitFrom, if_neg hp2]
    simpa using h2

theorem findContainerID_first (target : Bytes) (pre : List ContainerStatus)
    (container : ContainerStatus) (post : List ContainerStatus)
    (hpre : ∀ c ∈ pre, c.Name ≠ target) (hname : container.Name = target) :
    findContainerID target (pre ++ container :: post)
      = (match Split container.ContainerID (ascii "//") with
          | _ :: id :: _ => Outcome.returned id
          | _ => Outcome.panicked) := by
  induction pre with
  | nil => simp [findContainerID, hname]
  | cons c rest ih =>
    have h1 : c.Name ≠ target := hpre c (List.mem_cons_self _ _)
    have h2 : ∀ x ∈ rest, x.Name ≠ target := fun x hx => hpre x (List.mem_cons_of_mem _ hx)
    simp [findContainerID, h1, ih h2]

/-- C10: in `GetPID`, when the first container status whose name is the target
container has the identifier `scheme ++ "://" ++ id`, with no `//` inside
`scheme` nor inside `id`, splitting the identifier on `//` gives the two pieces
`scheme ++ ":"` and `id`, the piece at index 1 is `id`, and `id` is exactly the
identifier handed to `crictl inspect`, which is run once, after the pod has
been read. -/
theorem GetPID_strips_scheme (w : World) (d : ExperimentDetails)
    (pre : List ContainerStatus) (container : ContainerStatus) (post : List ContainerStatus)
    (scheme id : Bytes)
    (hpod : w.getPod d.AppNS d.TargetPod = some (pre ++ container :: post))
    (hpre : ∀ c ∈ pre, c.Name ≠ d.TargetContainer)
    (hname : container.Name = d.TargetContainer)
    (hid : container.ContainerID = scheme ++ ascii "://" ++ id)
    (hscheme : ¬ ascii "//" <:+: scheme) (hbare : ¬ ascii "//" <:+: id) :
    Split container.ContainerID (ascii "//") = [scheme ++ ascii ":", id]
    ∧ (Split container.ContainerID (ascii "//"))[1]? = some id
    ∧ findContainerID d.TargetContainer (pre ++ container :: post) = Outcome.returned id
    ∧ (GetPID w d).1 = [Event.getPod d.AppNS d.TargetPod, Event.crictlInspect id] := by
  have hs : Split container.ContainerID (ascii "//") = [scheme ++ ascii ":", id] := by
    rw [hid, Split]
    simpa using splitFrom_scheme scheme id hbare [] hscheme
  have hf : findContainerID d.TargetContainer (pre ++ container :: post)
      = Outcome.returned id := by
    rw [findContainerID_first d.TargetContainer pre container post hpre hname, hs]
  refine ⟨hs, by rw [hs]; rfl, hf, ?_⟩
  unfold GetPID
  rw [hpod]
  simp only [hf]
  split
  · rfl
  · split <;> rfl

theorem GetPID_strips_scheme_witness :
    (GetPID (sampleWorld none WaitResolution.timer none)
        (GetENV (sampleWorld none WaitResolution.timer none))).1
      = [Event.getPod (ascii "default") (ascii "nginx-0"), Event.crictlInspect (ascii "a1b2")] :=
  (GetPID_strips_scheme (sampleWorld none WaitResolution.timer none)
    (GetENV (sampleWorld none WaitResolution.timer none))
    [⟨ascii "sidecar", ascii "containerd://0f0f"⟩] ⟨ascii "nginx", ascii "containerd://a1b2"⟩ []
    (ascii "containerd") (ascii "a1b2") rfl (by decide) (by decide) (by decide) (by decide)
    (by decide)).2.2.2

end Netem
